import Mathlib

/-!
Verification of the corpus ingestion / dataset-assembly pipeline of the
Thorsten-Voice repository.

The embedded code is `helperScripts/LJSpeech2HF-Parquet.py` (functions
`load_ljs_metadata`, `build_hf_audio_dataset`, `push_dataset_to_hub`, `main`)
and `Youtube/TextCleaning-for-betterTTS/cleaning.py` (the stdin loop and the
final `normalize_text` call).

Python strings are modelled as lists of characters (`Str`); the filesystem is
modelled by a predicate `isfile : Str → Bool` standing for `os.path.isfile`;
the metadata file's content is passed as its list of lines; external network
effects of `push_dataset_to_hub` are recorded as a trace of `HubAction`s.
-/

/-- Python strings, modelled as lists of characters. -/
abbrev Str := List Char

/-- Characters removed by Python `str.strip()` (the ASCII whitespace class:
space, tab, newline, carriage return, vertical tab, form feed). -/
def pyIsSpace (c : Char) : Bool :=
  c = ' ' || c = '\t' || c = '\n' || c = '\r' || c = '\x0b' || c = '\x0c'

/-- Python `s.strip()`: drop leading and trailing whitespace. -/
def pystrip (s : Str) : Str :=
  ((s.dropWhile pyIsSpace).reverse.dropWhile pyIsSpace).reverse

/-- Python sequence indexing `xs[i]` with an `int` index: a negative index has
the length added once; an index out of range after that adjustment raises
`IndexError`, modelled as `none`. -/
def pyIndex {α : Type} (xs : List α) (i : Int) : Option α :=
  let n : Int := xs.length
  let j : Int := if i < 0 then i + n else i
  if 0 ≤ j ∧ j < n then xs.get? j.toNat else none

/-- POSIX `os.path.join(a, b)`: if `b` is absolute the result is `b`; if `a`
is empty or ends with the separator, concatenate; otherwise insert `/`. -/
def ospJoin (a b : Str) : Str :=
  if b.head? = some '/' then b
  else if a = [] ∨ a.getLast? = some '/' then a ++ b
  else a ++ '/' :: b

/-- One dict appended to `data` by `load_ljs_metadata`
(`{"id": utt_id, "text": text, "audio_path": wav_path}`). -/
structure MetaRecord where
  id : Str
  text : Str
  audio_path : Str
deriving DecidableEq, Repr

/-- Outcome of the parsing loop body of `load_ljs_metadata` for one raw line:
a blank line is skipped silently (`continue` with no print); a line failing a
check is skipped after printing the given `[WARN]` diagnostic; otherwise one
record is appended. -/
inductive LineResult where
  | blank : LineResult
  | skipped (warn : Str) : LineResult
  | record (r : MetaRecord) : LineResult
deriving DecidableEq, Repr

/-- Body of the `for line in f` loop of `load_ljs_metadata`
(LJSpeech2HF-Parquet.py lines 64-97): strip the line, skip blanks, split on
`"|"`, reject lines with fewer than 2 fields, take `utt_id = parts[0].strip()`,
select `parts[text_column_index].strip()` (an `IndexError` skips the line),
derive `wav_path = join(root_dir, join(wav_subdir, utt_id + audio_ext))`, and
keep the record only when `isfile wav_path`. -/
def processLine (isfile : Str → Bool) (root_dir wav_subdir audio_ext : Str)
    (text_column_index : Int) (rawLine : Str) : LineResult :=
  let line := pystrip rawLine
  if line = [] then LineResult.blank
  else
    let parts := line.splitOn '|'
    if parts.length < 2 then
      LineResult.skipped ("[WARN] malformed metadata line (too few columns): ".data ++ line)
    else
      let utt_id := pystrip (parts.headD [])
      match pyIndex parts text_column_index with
      | none =>
          LineResult.skipped ("[WARN] text_column_index ".data
            ++ (toString text_column_index).data ++ " invalid for line: ".data ++ line)
      | some field =>
          let text := pystrip field
          let wav_rel := ospJoin wav_subdir (utt_id ++ audio_ext)
          let wav_path := ospJoin root_dir wav_rel
          if isfile wav_path then
            LineResult.record { id := utt_id, text := text, audio_path := wav_path }
          else
            LineResult.skipped ("[WARN] audio file not found, skipping: ".data ++ wav_path)

/-- Record contributed by one raw line, if any. -/
def recordOf? (isfile : Str → Bool) (root_dir wav_subdir audio_ext : Str)
    (text_column_index : Int) (rawLine : Str) : Option MetaRecord :=
  match processLine isfile root_dir wav_subdir audio_ext text_column_index rawLine with
  | LineResult.record r => some r
  | _ => none

/-- Diagnostic printed for one raw line, if any. -/
def warnOf? (isfile : Str → Bool) (root_dir wav_subdir audio_ext : Str)
    (text_column_index : Int) (rawLine : Str) : Option Str :=
  match processLine isfile root_dir wav_subdir audio_ext text_column_index rawLine with
  | LineResult.skipped w => some w
  | _ => none

/-- The `data` list accumulated by `load_ljs_metadata` over all lines of the
metadata file, in file order. -/
def recordsOf (isfile : Str → Bool) (root_dir wav_subdir audio_ext : Str)
    (text_column_index : Int) (metaLines : List Str) : List MetaRecord :=
  metaLines.filterMap (recordOf? isfile root_dir wav_subdir audio_ext text_column_index)

/-- All `[WARN]` diagnostics printed by `load_ljs_metadata`, in file order. -/
def diagnosticsOf (isfile : Str → Bool) (root_dir wav_subdir audio_ext : Str)
    (text_column_index : Int) (metaLines : List Str) : List Str :=
  metaLines.filterMap (warnOf? isfile root_dir wav_subdir audio_ext text_column_index)

/-- `load_ljs_metadata` (LJSpeech2HF-Parquet.py lines 27-101), applied to the
lines of an existing metadata file (the upstream `FileNotFoundError` check for
a missing file is prior to line processing and not modelled here, and the
hardcoded delimiter is `"|"`): accumulate one record per surviving line, and
raise `RuntimeError("No valid rows found in metadata file.")` when no record
survives, modelled as `Except.error` carrying the message. -/
def load_ljs_metadata (isfile : Str → Bool) (root_dir : Str) (metaLines : List Str)
    (wav_subdir : Str := "wavs".data) (audio_ext : Str := ".wav".data)
    (text_column_index : Int := -1) : Except Str (List MetaRecord) :=
  let data := recordsOf isfile root_dir wav_subdir audio_ext text_column_index metaLines
  if data = [] then Except.error "No valid rows found in metadata file.".data
  else Except.ok data

/-- The `Audio(sampling_rate=...)` feature of the dataset schema: a lazy,
path-based audio reference type carrying the declared sampling rate as
metadata. -/
structure AudioFeature where
  sampling_rate : Int
deriving DecidableEq, Repr

/-- The `Features({"id": Value("string"), "text": Value("string"),
"audio": Audio(...)})` schema built by `build_hf_audio_dataset`. -/
structure DatasetFeatures where
  id_type : Str
  text_type : Str
  audio_feature : AudioFeature
deriving DecidableEq, Repr

/-- One row dict `{"id": ..., "text": ..., "audio": audio_path}` appended in
the loop of `build_hf_audio_dataset`; the `audio` entry is the path, which the
Audio feature later interprets lazily. -/
structure DatasetRow where
  id : Str
  text : Str
  audio : Str
deriving DecidableEq, Repr

/-- The value `Dataset.from_list(rows, features=features)`: an ordered list of
rows under the fixed three-column schema. -/
structure HFDataset where
  features : DatasetFeatures
  rows : List DatasetRow
deriving DecidableEq, Repr

/-- `build_hf_audio_dataset` (LJSpeech2HF-Parquet.py lines 108-142): declare
the fixed schema, then map each example dict to one row dict in input order. -/
def build_hf_audio_dataset (examples : List MetaRecord)
    (sampling_rate : Int := 24000) : HFDataset :=
  { features :=
      { id_type := "string".data
        text_type := "string".data
        audio_feature := { sampling_rate := sampling_rate } }
    rows := examples.map (fun ex =>
      { id := ex.id, text := ex.text, audio := ex.audio_path }) }

/-- One external call made by `push_dataset_to_hub`, recorded with the
arguments the Python code passes: `api.create_repo(repo_id=..,
repo_type="dataset", private=.., exist_ok=True, token=..)` and
`ds.push_to_hub(repo_id=.., token=..)`. -/
inductive HubAction where
  | createRepo (repo_id : Str) (repo_type : Str) (priv : Bool) (exist_ok : Bool)
      (token : Str) : HubAction
  | pushToHub (ds : HFDataset) (repo_id : Str) (token : Str) : HubAction
deriving DecidableEq, Repr

/-- `push_dataset_to_hub` (LJSpeech2HF-Parquet.py lines 149-182): resolve the
token (explicit `hf_token` argument, else `os.getenv("HF_TOKEN")`, modelled by
the `getenv_HF_TOKEN` parameter); when both are `None` raise `RuntimeError`
before any network call; otherwise perform `create_repo` (with
`repo_type="dataset"`, `exist_ok=True`) and then `push_to_hub`. The network
calls are returned as a trace; `Except.error` means no call was made. The
Python parameter `private` is rendered `priv` (`private` is a Lean keyword). -/
def push_dataset_to_hub (getenv_HF_TOKEN : Option Str) (ds : HFDataset)
    (repo_id : Str) (hf_token : Option Str := none) (priv : Bool := false) :
    Except Str (List HubAction) :=
  let tok : Option Str :=
    match hf_token with
    | none => getenv_HF_TOKEN
    | some t => some t
  match tok with
  | none =>
      Except.error "No HF token found. Pass --hf-token or set HF_TOKEN env variable.".data
  | some t =>
      Except.ok [HubAction.createRepo repo_id "dataset".data priv true t,
                 HubAction.pushToHub ds repo_id t]

/-- Final state of a run of `main` (LJSpeech2HF-Parquet.py lines 254-284): a
raised error propagates and the process fails, or the run completes with the
built dataset and the network calls that were made. -/
inductive PipelineResult where
  | failed (msg : Str) : PipelineResult
  | done (ds : HFDataset) (actions : List HubAction) : PipelineResult
deriving DecidableEq, Repr

/-- `main` (LJSpeech2HF-Parquet.py lines 254-284), rendered `pipeline_main`
since `main` is reserved in Lean: load the metadata, build the dataset, push
it; any raised error aborts the run at that point. -/
def pipeline_main (isfile : Str → Bool) (getenv_HF_TOKEN : Option Str)
    (metaLines : List Str) (root_dir wav_subdir audio_ext : Str)
    (text_column_index : Int) (sampling_rate : Int) (hf_repo : Str)
    (hf_token : Option Str) (hf_private : Bool) : PipelineResult :=
  match load_ljs_metadata isfile root_dir metaLines wav_subdir audio_ext
      text_column_index with
  | Except.error m => PipelineResult.failed m
  | Except.ok examples =>
      let ds := build_hf_audio_dataset examples sampling_rate
      match push_dataset_to_hub getenv_HF_TOKEN ds hf_repo hf_token hf_private with
      | Except.error m => PipelineResult.failed m
      | Except.ok actions => PipelineResult.done ds actions

/-- Modelled from the spec: the remote side of `HfApi.create_repo` lives in the
external `huggingface_hub` library, not in this repository; per the spec it has
create-if-absent semantics — "if the remote repository already exists, the call
succeeds as a no-op rather than failing with a 'already exists' error
(`exist_ok` behavior)"; without `exist_ok` an existing repository is an error.
The remote registry state is modelled as the list of existing repository ids. -/
def hub_create_repo (existing : List Str) (repo_id : Str) (exist_ok : Bool) :
    Except Str (List Str) :=
  if repo_id ∈ existing then
    if exist_ok then Except.ok existing
    else Except.error ("You already created this model repo: ".data ++ repo_id)
  else Except.ok (repo_id :: existing)

/-- The loop `for line in sys.stdin: input_text_stdin = str(line)` of
cleaning.py (lines 18-19): each iteration overwrites the single variable, so
after the loop it holds the last line, or is unbound when stdin was empty. -/
def stdinLoop (stdin : List Str) : Option Str :=
  stdin.foldl (fun _ line => some line) none

/-- Top level of cleaning.py (lines 18-24): run the stdin loop, then call
`normalize_text` on the final value of `input_text_stdin` and write the result
to stdout. The external nemo `Normalizer` is opaque here, so `normalize` is a
parameter. `none` models the `NameError` raised when stdin had no line and
`input_text_stdin` was never bound; `some out` is the text written to stdout. -/
def cleaning_main (normalize : Str → Str) (stdin : List Str) : Option Str :=
  match stdinLoop stdin with
  | none => none
  | some input_text_stdin => some (normalize input_text_stdin)

/-- A string that splits into at least two fields is not empty. -/
theorem pystrip_ne_nil_of_two_fields (line : Str)
    (h2 : 2 ≤ ((pystrip line).splitOn '|').length) : pystrip line ≠ [] := by
  intro h
  rw [h, List.splitOn_nil] at h2
  simp at h2

/-- Python index `-1` is the last element of the sequence (`IndexError`,
i.e. `none`, exactly when the sequence is empty). -/
theorem pyIndex_neg_one {α : Type} (xs : List α) : pyIndex xs (-1) = xs.getLast? := by
  unfold pyIndex
  cases xs with
  | nil => simp
  | cons a l =>
    have hlen : ((a :: l).length : Int) = (l.length : Int) + 1 := by simp
    rw [List.getLast?_eq_getElem?]
    simp only [hlen]
    rw [if_pos (by constructor <;> omega)]
    rw [if_pos (by omega)]
    have h : ((-1 : Int) + ((l.length : Int) + 1)).toNat = l.length := by omega
    rw [h, List.get?_eq_getElem?]
    simp

/-- A line whose checks all pass is turned into exactly the record the code
builds. -/
theorem processLine_eq_record
    (isfile : Str → Bool) (root_dir wav_subdir audio_ext : Str) (tci : Int)
    (rawLine field : Str)
    (h2 : 2 ≤ ((pystrip rawLine).splitOn '|').length)
    (hIdx : pyIndex ((pystrip rawLine).splitOn '|') tci = some field)
    (hFile : isfile (ospJoin root_dir (ospJoin wav_subdir
        (pystrip (((pystrip rawLine).splitOn '|').headD []) ++ audio_ext))) = true) :
    processLine isfile root_dir wav_subdir audio_ext tci rawLine =
      LineResult.record
        { id := pystrip (((pystrip rawLine).splitOn '|').headD [])
          text := pystrip field
          audio_path := ospJoin root_dir (ospJoin wav_subdir
            (pystrip (((pystrip rawLine).splitOn '|').headD []) ++ audio_ext)) } := by
  have hne := pystrip_ne_nil_of_two_fields rawLine h2
  simp only [processLine]
  rw [if_neg hne, if_neg (by omega), hIdx, hFile]
  simp

/-- C1: for every line of the metadata file with at least 2 delimiter-separated
fields, a text-column index that resolves to an existing field, and whose
derived audio path (root joined with wav_subdir joined with id + audio_ext)
exists on disk, `load_ljs_metadata` produces exactly one record for that line:
its id is the first field trimmed, its text the selected field trimmed, and its
audio_path that derived path. -/
theorem ljs_valid_line_yields_exact_record
    (isfile : Str → Bool) (root_dir wav_subdir audio_ext : Str) (tci : Int)
    (rawLine field : Str)
    (h2 : 2 ≤ ((pystrip rawLine).splitOn '|').length)
    (hIdx : pyIndex ((pystrip rawLine).splitOn '|') tci = some field)
    (hFile : isfile (ospJoin root_dir (ospJoin wav_subdir
        (pystrip (((pystrip rawLine).splitOn '|').headD []) ++ audio_ext))) = true) :
    processLine isfile root_dir wav_subdir audio_ext tci rawLine =
      LineResult.record
        { id := pystrip (((pystrip rawLine).splitOn '|').headD [])
          text := pystrip field
          audio_path := ospJoin root_dir (ospJoin wav_subdir
            (pystrip (((pystrip rawLine).splitOn '|').headD []) ++ audio_ext)) } ∧
    ∀ pre post : List Str,
      recordsOf isfile root_dir wav_subdir audio_ext tci (pre ++ rawLine :: post) =
        recordsOf isfile root_dir wav_subdir audio_ext tci pre ++
          { id := pystrip (((pystrip rawLine).splitOn '|').headD [])
            text := pystrip field
            audio_path := ospJoin root_dir (ospJoin wav_subdir
              (pystrip (((pystrip rawLine).splitOn '|').headD []) ++ audio_ext)) } ::
            recordsOf isfile root_dir wav_subdir audio_ext tci post := by
  have hrec := processLine_eq_record isfile root_dir wav_subdir audio_ext tci
    rawLine field h2 hIdx hFile
  refine ⟨hrec, fun pre post => ?_⟩
  have hone : recordOf? isfile root_dir wav_subdir audio_ext tci rawLine =
      some { id := pystrip (((pystrip rawLine).splitOn '|').headD [])
             text := pystrip field
             audio_path := ospJoin root_dir (ospJoin wav_subdir
               (pystrip (((pystrip rawLine).splitOn '|').headD []) ++ audio_ext)) } := by
    unfold recordOf?
    rw [hrec]
  unfold recordsOf
  rw [List.filterMap_append, List.filterMap_cons, hone]

/-- C1 witness: the spec's own example line, with the audio file present,
yields exactly the expected record. -/
theorem ljs_valid_line_yields_exact_record_witness :
    processLine (fun _ => true) "root".data "wavs".data ".wav".data (-1)
        "LJ001-0001|Mary had a little lamb.|MARY HAD A LITTLE LAMB.".data =
      LineResult.record
        { id := "LJ001-0001".data
          text := "MARY HAD A LITTLE LAMB.".data
          audio_path := "root/wavs/LJ001-0001.wav".data } ∧
    recordsOf (fun _ => true) "root".data "wavs".data ".wav".data (-1)
        ["LJ001-0001|Mary had a little lamb.|MARY HAD A LITTLE LAMB.".data] =
      [{ id := "LJ001-0001".data
         text := "MARY HAD A LITTLE LAMB.".data
         audio_path := "root/wavs/LJ001-0001.wav".data }] := by
  have h := ljs_valid_line_yields_exact_record (fun _ => true) "root".data
    "wavs".data ".wav".data (-1)
    "LJ001-0001|Mary had a little lamb.|MARY HAD A LITTLE LAMB.".data
    "MARY HAD A LITTLE LAMB.".data (by decide) (by decide) (by decide)
  exact ⟨h.1.trans (by decide), (h.2 [] []).trans (by decide)⟩

/-- C2: if zero records survive parsing plus audio-existence validation,
`load_ljs_metadata` raises `RuntimeError("No valid rows found in metadata
file.")` and `main` fails with it, building no dataset and making no network
call; conversely when at least one record survives, no such error is raised
and exactly the surviving records are returned. -/
theorem ljs_empty_dataset_error_iff
    (isfile : Str → Bool) (getenv_HF_TOKEN : Option Str) (metaLines : List Str)
    (root_dir wav_subdir audio_ext : Str) (tci : Int) (sr : Int)
    (hf_repo : Str) (hf_token : Option Str) (hf_private : Bool) :
    (recordsOf isfile root_dir wav_subdir audio_ext tci metaLines = [] →
      load_ljs_metadata isfile root_dir metaLines wav_subdir audio_ext tci =
        Except.error "No valid rows found in metadata file.".data ∧
      pipeline_main isfile getenv_HF_TOKEN metaLines root_dir wav_subdir audio_ext
          tci sr hf_repo hf_token hf_private =
        PipelineResult.failed "No valid rows found in metadata file.".data) ∧
    (recordsOf isfile root_dir wav_subdir audio_ext tci metaLines ≠ [] →
      load_ljs_metadata isfile root_dir metaLines wav_subdir audio_ext tci =
        Except.ok (recordsOf isfile root_dir wav_subdir audio_ext tci metaLines)) := by
  constructor
  · intro h
    have hl : load_ljs_metadata isfile root_dir metaLines wav_subdir audio_ext tci =
        Except.error "No valid rows found in metadata file.".data := by
      simp only [load_ljs_metadata]
      rw [if_pos h]
    refine ⟨hl, ?_⟩
    simp only [pipeline_main]
    rw [hl]
  · intro h
    simp only [load_ljs_metadata]
    rw [if_neg h]

/-- C2 witness: with no audio file present the single line survives nothing
and the run fails with the empty-dataset error before any assembly or push;
with the audio file present the record is returned. -/
theorem ljs_empty_dataset_error_iff_witness :
    (load_ljs_metadata (fun _ => false) "root".data ["a|b".data]
        "wavs".data ".wav".data (-1) =
      Except.error "No valid rows found in metadata file.".data ∧
     pipeline_main (fun _ => false) none ["a|b".data] "root".data "wavs".data
        ".wav".data (-1) 24000 "user/repo".data none false =
      PipelineResult.failed "No valid rows found in metadata file.".data) ∧
    load_ljs_metadata (fun _ => true) "root".data ["a|b".data]
        "wavs".data ".wav".data (-1) =
      Except.ok [{ id := "a".data, text := "b".data,
                   audio_path := "root/wavs/a.wav".data }] := by
  have h1 := (ljs_empty_dataset_error_iff (fun _ => false) none ["a|b".data]
    "root".data "wavs".data ".wav".data (-1) 24000 "user/repo".data none false).1
    (by decide)
  have h2 := (ljs_empty_dataset_error_iff (fun _ => true) none ["a|b".data]
    "root".data "wavs".data ".wav".data (-1) 24000 "user/repo".data none false).2
    (by decide)
  exact ⟨h1, h2.trans (congrArg Except.ok (by decide))⟩

/-- C3 counterexample: a whitespace-only line has a single delimiter-separated
field — fewer than 2 — yet `load_ljs_metadata` emits no diagnostic for it and
produces no record: blank lines are skipped silently (`continue` before the
field-count check), so the claim quantified over every such line fails here. -/
theorem ljs_blank_line_counterexample :
    ("   ".data.splitOn '|').length < 2 ∧
    ((pystrip "   ".data).splitOn '|').length < 2 ∧
    processLine (fun _ => true) "root".data "wavs".data ".wav".data (-1)
      "   ".data = LineResult.blank ∧
    warnOf? (fun _ => true) "root".data "wavs".data ".wav".data (-1)
      "   ".data = none ∧
    diagnosticsOf (fun _ => true) "root".data "wavs".data ".wav".data (-1)
      ["   ".data] = [] := by
  decide

/-- C3 amended: for every line that is non-blank after stripping and has fewer
than 2 delimiter-separated fields, or whose resolved text-column index is out
of range for that line's field count, or whose derived audio path does not
exist, `load_ljs_metadata` emits a diagnostic, produces no record for that
line, raises no exception, and continues processing the remaining lines;
blank lines are likewise recordless but are skipped silently. -/
theorem ljs_bad_nonblank_line_skipped
    (isfile : Str → Bool) (root_dir wav_subdir audio_ext : Str) (tci : Int)
    (rawLine : Str) (hnb : pystrip rawLine ≠ [])
    (hbad : ((pystrip rawLine).splitOn '|').length < 2 ∨
      pyIndex ((pystrip rawLine).splitOn '|') tci = none ∨
      ((∃ f, pyIndex ((pystrip rawLine).splitOn '|') tci = some f) ∧
        isfile (ospJoin root_dir (ospJoin wav_subdir
          (pystrip (((pystrip rawLine).splitOn '|').headD []) ++ audio_ext)))
          = false)) :
    (warnOf? isfile root_dir wav_subdir audio_ext tci rawLine).isSome = true ∧
    recordOf? isfile root_dir wav_subdir audio_ext tci rawLine = none ∧
    ∀ pre post : List Str,
      recordsOf isfile root_dir wav_subdir audio_ext tci (pre ++ rawLine :: post) =
        recordsOf isfile root_dir wav_subdir audio_ext tci pre ++
          recordsOf isfile root_dir wav_subdir audio_ext tci post ∧
      diagnosticsOf isfile root_dir wav_subdir audio_ext tci (pre ++ rawLine :: post) =
        diagnosticsOf isfile root_dir wav_subdir audio_ext tci pre ++
          (warnOf? isfile root_dir wav_subdir audio_ext tci rawLine).toList ++
          diagnosticsOf isfile root_dir wav_subdir audio_ext tci post := by
  have hskip : ∃ w, processLine isfile root_dir wav_subdir audio_ext tci rawLine =
      LineResult.skipped w := by
    simp only [processLine]
    rw [if_neg hnb]
    by_cases hlen : ((pystrip rawLine).splitOn '|').length < 2
    · rw [if_pos hlen]
      exact ⟨_, rfl⟩
    · rw [if_neg hlen]
      rcases hbad with h | h | ⟨⟨f, hf⟩, hfile⟩
      · omega
      · rw [h]
        exact ⟨_, rfl⟩
      · exact ⟨_, by rw [hf, hfile]; rfl⟩
  obtain ⟨w, hw⟩ := hskip
  have hwarn : warnOf? isfile root_dir wav_subdir audio_ext tci rawLine = some w := by
    unfold warnOf?
    rw [hw]
  have hrec : recordOf? isfile root_dir wav_subdir audio_ext tci rawLine = none := by
    unfold recordOf?
    rw [hw]
  refine ⟨by rw [hwarn]; rfl, hrec, fun pre post => ⟨?_, ?_⟩⟩
  · unfold recordsOf
    rw [List.filterMap_append, List.filterMap_cons, hrec]
  · unfold diagnosticsOf
    rw [List.filterMap_append, List.filterMap_cons, hwarn]
    simp

/-- C3 witness: the spec's own malformed example line, sitting before a good
line, is diagnosed, contributes no record, and the good line still parses. -/
theorem ljs_bad_nonblank_line_skipped_witness :
    (warnOf? (fun _ => true) "root".data "wavs".data ".wav".data (-1)
      "onlyonefield".data).isSome = true ∧
    recordOf? (fun _ => true) "root".data "wavs".data ".wav".data (-1)
      "onlyonefield".data = none ∧
    recordsOf (fun _ => true) "root".data "wavs".data ".wav".data (-1)
        ["onlyonefield".data, "a|b".data] =
      recordsOf (fun _ => true) "root".data "wavs".data ".wav".data (-1)
        ["a|b".data] ∧
    diagnosticsOf (fun _ => true) "root".data "wavs".data ".wav".data (-1)
        ["onlyonefield".data, "a|b".data] =
      (warnOf? (fun _ => true) "root".data "wavs".data ".wav".data (-1)
          "onlyonefield".data).toList ++
        diagnosticsOf (fun _ => true) "root".data "wavs".data ".wav".data (-1)
          ["a|b".data] := by
  have h := ljs_bad_nonblank_line_skipped (fun _ => true) "root".data "wavs".data
    ".wav".data (-1) "onlyonefield".data (by decide) (Or.inl (by decide))
  have h4 := h.2.2 [] ["a|b".data]
  exact ⟨h.1, h.2.1, h4.1, h4.2⟩

/-- C4: for every non-blank line with at least 2 delimiter-separated fields, a
text_column_index of -1 selects the last field of that very line — so lines of
the same file with different field counts each get their own last field — and
any record the line produces carries that last field, trimmed, as its text. -/
theorem ljs_neg_one_selects_last_field
    (isfile : Str → Bool) (root_dir wav_subdir audio_ext : Str) (rawLine : Str)
    (h2 : 2 ≤ ((pystrip rawLine).splitOn '|').length) :
    pyIndex ((pystrip rawLine).splitOn '|') (-1) =
      ((pystrip rawLine).splitOn '|').getLast? ∧
    (((pystrip rawLine).splitOn '|').getLast?).isSome = true ∧
    ∀ r, processLine isfile root_dir wav_subdir audio_ext (-1) rawLine =
        LineResult.record r →
      some r.text = (((pystrip rawLine).splitOn '|').getLast?).map pystrip := by
  have hpne : (pystrip rawLine).splitOn '|' ≠ [] := by
    intro h
    rw [h] at h2
    simp at h2
  obtain ⟨last, hlast⟩ : ∃ l, ((pystrip rawLine).splitOn '|').getLast? = some l :=
    ⟨_, List.getLast?_eq_getLast_of_ne_nil hpne⟩
  refine ⟨pyIndex_neg_one _, by rw [hlast]; rfl, ?_⟩
  intro r hr
  have hne := pystrip_ne_nil_of_two_fields rawLine h2
  by_cases hfile : isfile (ospJoin root_dir (ospJoin wav_subdir
      (pystrip (((pystrip rawLine).splitOn '|').headD []) ++ audio_ext))) = true
  · have hrec := processLine_eq_record isfile root_dir wav_subdir audio_ext (-1)
      rawLine last h2 (by rw [pyIndex_neg_one, hlast]) hfile
    rw [hrec] at hr
    injection hr with h
    subst h
    rw [hlast]
    rfl
  · rw [Bool.not_eq_true] at hfile
    simp only [processLine] at hr
    rw [if_neg hne, if_neg (by omega), pyIndex_neg_one, hlast, hfile] at hr
    simp at hr

/-- C4 witness: two lines with different field counts each have their last
field selected by index -1, and the records they produce carry those trimmed
last fields as text. -/
theorem ljs_neg_one_selects_last_field_witness :
    pyIndex ((pystrip "a|b|c".data).splitOn '|') (-1) = some "c".data ∧
    pyIndex ((pystrip "x|y".data).splitOn '|') (-1) = some "y".data ∧
    some "c".data = (((pystrip "a|b|c".data).splitOn '|').getLast?).map pystrip ∧
    some "y".data = (((pystrip "x|y".data).splitOn '|').getLast?).map pystrip := by
  have h3 := ljs_neg_one_selects_last_field (fun _ => true) "root".data
    "wavs".data ".wav".data "a|b|c".data (by decide)
  have h2 := ljs_neg_one_selects_last_field (fun _ => true) "root".data
    "wavs".data ".wav".data "x|y".data (by decide)
  refine ⟨h3.1.trans (by decide), h2.1.trans (by decide), ?_, ?_⟩
  · exact h3.2.2
      { id := "a".data, text := "c".data, audio_path := "root/wavs/a.wav".data }
      (by decide)
  · exact h2.2.2
      { id := "x".data, text := "y".data, audio_path := "root/wavs/x.wav".data }
      (by decide)

/-- C5 counterexample: the line starting with the delimiter has a first field
that trims to the empty string, yet when the derived audio path
"root/wavs/.wav" exists, `load_ljs_metadata` happily produces a record whose
id is the empty string — no non-emptiness check exists in the code. -/
theorem ljs_empty_id_counterexample :
    processLine (fun _ => true) "root".data "wavs".data ".wav".data (-1)
      "|hello".data =
      LineResult.record
        { id := [], text := "hello".data, audio_path := "root/wavs/.wav".data } ∧
    load_ljs_metadata (fun _ => true) "root".data ["|hello".data]
        "wavs".data ".wav".data (-1) =
      Except.ok
        [{ id := [], text := "hello".data, audio_path := "root/wavs/.wav".data }] := by
  exact ⟨by decide, by rfl⟩

/-- C5 amended: every record constructed by `load_ljs_metadata` has as id the
trimmed first field of its line — which the code does not require to be
non-empty, so a line beginning with the delimiter can yield a record whose id
is the empty string. -/
theorem ljs_record_id_is_trimmed_first_field
    (isfile : Str → Bool) (root_dir wav_subdir audio_ext : Str) (tci : Int)
    (rawLine : Str) (r : MetaRecord)
    (hr : processLine isfile root_dir wav_subdir audio_ext tci rawLine =
      LineResult.record r) :
    r.id = pystrip (((pystrip rawLine).splitOn '|').headD []) := by
  simp only [processLine] at hr
  by_cases hnb : pystrip rawLine = []
  · rw [if_pos hnb] at hr
    simp at hr
  · rw [if_neg hnb] at hr
    by_cases hlen : ((pystrip rawLine).splitOn '|').length < 2
    · rw [if_pos hlen] at hr
      simp at hr
    · rw [if_neg hlen] at hr
      cases hidx : pyIndex ((pystrip rawLine).splitOn '|') tci with
      | none =>
        rw [hidx] at hr
        simp at hr
      | some f =>
        rw [hidx] at hr
        cases hfb : isfile (ospJoin root_dir (ospJoin wav_subdir
            (pystrip (((pystrip rawLine).splitOn '|').headD []) ++ audio_ext))) with
        | false =>
          rw [hfb] at hr
          simp at hr
        | true =>
          rw [hfb] at hr
          simp at hr
          subst hr
          simp

/-- C5 amended witness: the empty-id record produced from "|hello" indeed has
as id the trimmed first field of its line, the empty string. -/
theorem ljs_record_id_is_trimmed_first_field_witness :
    ({ id := [], text := "hello".data,
       audio_path := "root/wavs/.wav".data } : MetaRecord).id =
      pystrip (((pystrip "|hello".data).splitOn '|').headD []) := by
  exact ljs_record_id_is_trimmed_first_field (fun _ => true) "root".data
    "wavs".data ".wav".data (-1) "|hello".data _ (by decide)

/-- C6: token resolution in `push_dataset_to_hub` follows the chain: an
explicit token, when passed, is used (whatever the environment holds);
otherwise the HF_TOKEN environment variable is consulted and used; when both
are absent the call fails with the authentication error, and the error result
carries no trace entry — no repository creation and no upload was attempted. -/
theorem push_token_resolution_chain
    (getenv_HF_TOKEN : Option Str) (ds : HFDataset) (repo_id : Str) (priv : Bool) :
    (∀ t, push_dataset_to_hub getenv_HF_TOKEN ds repo_id (some t) priv =
      Except.ok [HubAction.createRepo repo_id "dataset".data priv true t,
                 HubAction.pushToHub ds repo_id t]) ∧
    (∀ t, push_dataset_to_hub (some t) ds repo_id none priv =
      Except.ok [HubAction.createRepo repo_id "dataset".data priv true t,
                 HubAction.pushToHub ds repo_id t]) ∧
    push_dataset_to_hub none ds repo_id none priv =
      Except.error
        "No HF token found. Pass --hf-token or set HF_TOKEN env variable.".data := by
  exact ⟨fun t => rfl, fun t => rfl, rfl⟩

/-- C7: `build_hf_audio_dataset` maps each input record to exactly one output
row under the fixed schema, preserving input order with no sorting and no
deduplication (the row list is literally the input list mapped), two builds
from equal inputs are identical, and rows of concatenated inputs are the
concatenated rows. -/
theorem build_dataset_deterministic_ordered
    (examples examples₂ : List MetaRecord) (sampling_rate sampling_rate₂ : Int) :
    build_hf_audio_dataset examples sampling_rate =
      { features := { id_type := "string".data, text_type := "string".data,
                      audio_feature := { sampling_rate := sampling_rate } }
        rows := examples.map (fun ex =>
          { id := ex.id, text := ex.text, audio := ex.audio_path }) } ∧
    (build_hf_audio_dataset examples sampling_rate).rows.length = examples.length ∧
    (examples = examples₂ → sampling_rate = sampling_rate₂ →
      build_hf_audio_dataset examples sampling_rate =
        build_hf_audio_dataset examples₂ sampling_rate₂) ∧
    (build_hf_audio_dataset (examples ++ examples₂) sampling_rate).rows =
      (build_hf_audio_dataset examples sampling_rate).rows ++
        (build_hf_audio_dataset examples₂ sampling_rate).rows := by
  refine ⟨rfl, by simp [build_hf_audio_dataset], fun h h' => by rw [h, h'], ?_⟩
  simp [build_hf_audio_dataset]

/-- C7 witness: two identical records (same id) are kept as two identical rows
in order, and building twice from the same input yields the same dataset. -/
theorem build_dataset_deterministic_ordered_witness :
    build_hf_audio_dataset
        [{ id := "a".data, text := "t".data, audio_path := "p".data },
         { id := "a".data, text := "t".data, audio_path := "p".data }] 24000 =
      { features := { id_type := "string".data, text_type := "string".data,
                      audio_feature := { sampling_rate := 24000 } }
        rows := [{ id := "a".data, text := "t".data, audio := "p".data },
                 { id := "a".data, text := "t".data, audio := "p".data }] } ∧
    build_hf_audio_dataset
        [{ id := "a".data, text := "t".data, audio_path := "p".data },
         { id := "a".data, text := "t".data, audio_path := "p".data }] 24000 =
      build_hf_audio_dataset
        [{ id := "a".data, text := "t".data, audio_path := "p".data },
         { id := "a".data, text := "t".data, audio_path := "p".data }] 24000 := by
  have h := build_dataset_deterministic_ordered
    [{ id := "a".data, text := "t".data, audio_path := "p".data },
     { id := "a".data, text := "t".data, audio_path := "p".data }]
    [{ id := "a".data, text := "t".data, audio_path := "p".data },
     { id := "a".data, text := "t".data, audio_path := "p".data }] 24000 24000
  exact ⟨h.1.trans (by decide), h.2.2.1 rfl rfl⟩

/-- C8: repository creation during publish is idempotent under the `exist_ok`
semantics the spec ascribes to the external hub client: from any remote state,
creating `repo_id` with `exist_ok` succeeds, and creating it again succeeds as
a no-op on the resulting state; and `push_dataset_to_hub` does pass
`exist_ok=True` (and `repo_type="dataset"`) on its create-repo call. -/
theorem create_repo_idempotent_exist_ok (existing : List Str) (repo_id : Str) :
    (∃ s, hub_create_repo existing repo_id true = Except.ok s ∧
      hub_create_repo s repo_id true = Except.ok s) ∧
    ∀ getenv_HF_TOKEN ds t priv,
      push_dataset_to_hub getenv_HF_TOKEN ds repo_id (some t) priv =
        Except.ok [HubAction.createRepo repo_id "dataset".data priv true t,
                   HubAction.pushToHub ds repo_id t] := by
  constructor
  · by_cases h : repo_id ∈ existing
    · refine ⟨existing, ?_, ?_⟩ <;> simp [hub_create_repo, h]
    · refine ⟨repo_id :: existing, ?_, ?_⟩
      · simp [hub_create_repo, h]
      · simp [hub_create_repo]
  · intro getenv_HF_TOKEN ds t priv
    rfl

/-- C9: parsing imposes no non-emptiness requirement on the selected text
field: the line "id|" ends in the delimiter, its last field trims to the empty
string, and with the audio file present `load_ljs_metadata` produces a record
whose text is the empty string. -/
theorem ljs_empty_text_record_exists :
    processLine (fun _ => true) "root".data "wavs".data ".wav".data (-1)
      "id|".data =
      LineResult.record
        { id := "id".data, text := [], audio_path := "root/wavs/id.wav".data } ∧
    load_ljs_metadata (fun _ => true) "root".data ["id|".data]
        "wavs".data ".wav".data (-1) =
      Except.ok
        [{ id := "id".data, text := [], audio_path := "root/wavs/id.wav".data }] := by
  exact ⟨by decide, by rfl⟩

/-- C10: for every stdin stream with at least one line (any prefix `pre`
followed by a final line `l`), the cleaning wrapper writes the normalization
of only the final line: the loop overwrites its variable each iteration, so
the output ignores `pre` entirely and equals the output on `[l]` alone; on an
empty stream no output is produced (the variable is unbound). -/
theorem cleaning_normalizes_only_last_line
    (normalize : Str → Str) (pre : List Str) (l : Str) :
    cleaning_main normalize (pre ++ [l]) = some (normalize l) ∧
    cleaning_main normalize (pre ++ [l]) = cleaning_main normalize [l] ∧
    cleaning_main normalize [] = none := by
  have hloop : stdinLoop (pre ++ [l]) = some l := by
    simp [stdinLoop, List.foldl_append]
  refine ⟨?_, ?_, rfl⟩
  · simp [cleaning_main, hloop]
  · simp [cleaning_main, hloop, stdinLoop]
